import Mathlib

/-!
Verification of the agent-chain execution engine of a terminal LLM client.

The Go sources are shallowly embedded: pure string manipulation is translated
directly; effectful collaborators (file system, HTTP inference service, the
`go`/`golangci-lint` toolchain, JSON decoding of backend responses) are
parameters of the functions that use them, so every run of the engine is a
pure function of its environment.
-/

namespace AgentUI

/-! ## Go string primitives

All primitives recurse structurally over `List Char` so that concrete runs
reduce inside the kernel. -/

/-- Go `strings.HasPrefix`. -/
def goHasPrefix (s p : String) : Bool :=
  p.data.isPrefixOf s.data

/-- Occurrence scan behind `goContains`. -/
def containsSubAux (sub : List Char) : List Char → Bool
  | [] => sub.isEmpty
  | c :: rest => sub.isPrefixOf (c :: rest) || containsSubAux sub rest

/-- Go `strings.Contains s sub`. -/
def goContains (s sub : String) : Bool :=
  containsSubAux sub.data s.data

/-- Leftmost non-overlapping replacement behind `goReplaceAll`; the fuel
argument (instantiated with the text's length, an upper bound on the number
of steps for the non-empty patterns used here) keeps the recursion
structural. -/
def replaceAllAux (old new : List Char) : Nat → List Char → List Char
  | 0, s => s
  | _, [] => []
  | fuel + 1, c :: rest =>
    if old.isPrefixOf (c :: rest) then
      new ++ replaceAllAux old new fuel ((c :: rest).drop old.length)
    else
      c :: replaceAllAux old new fuel rest

/-- Go `strings.ReplaceAll s old new` for non-empty `old`. -/
def goReplaceAll (s old new : String) : String :=
  String.mk (replaceAllAux old.data new.data s.data.length s.data)

/-- Go `strings.Trim s "\"\"\""`: the cutset is the single character `"`,
so all leading and trailing double quotes are removed. -/
def trimQuotes (s : String) : String :=
  String.mk (((s.data.dropWhile (· = '"')).reverse.dropWhile (· = '"')).reverse)

/-- Go `strings.TrimSpace` (ASCII whitespace suffices for this code base). -/
def goTrimSpace (s : String) : String :=
  String.mk (((s.data.dropWhile Char.isWhitespace).reverse.dropWhile
    Char.isWhitespace).reverse)

/-- Split on a separator character, keeping empty tokens. -/
def splitOnCharAux (sep : Char) : List Char → List Char → List (List Char)
  | [], acc => [acc.reverse]
  | c :: rest, acc =>
    if c = sep then acc.reverse :: splitOnCharAux sep rest []
    else splitOnCharAux sep rest (c :: acc)

/-- The lines delivered by `bufio.Scanner` with the default `ScanLines` split:
split on `'\n'`, no empty final token for a trailing newline, and a trailing
`'\r'` is dropped from each line. -/
def goLines (s : String) : List String :=
  let parts := splitOnCharAux '\n' s.data []
  let parts := if parts.getLast? = some [] then parts.dropLast else parts
  parts.map (fun l => String.mk (if l.getLast? = some '\r' then l.dropLast else l))

/-- Go `strconv.Atoi`: optional sign, then at least one ASCII digit, nothing
else; values outside the signed 64-bit range are an error (`ErrRange`). -/
def atoi (s : String) : Option Int :=
  let (neg, ds) :=
    match s.data with
    | '-' :: rest => (true, rest)
    | '+' :: rest => (false, rest)
    | cs => (false, cs)
  if ds.isEmpty then none
  else if ds.all Char.isDigit then
    let n : Nat := ds.foldl (fun acc c => acc * 10 + (c.toNat - '0'.toNat)) 0
    let v : Int := if neg then -(n : Int) else (n : Int)
    if v < -(2 ^ 63) ∨ v > 2 ^ 63 - 1 then none else some v
  else none

/-! ## Data model (types.go) -/

/-- Structure `Tool` from types.go (only the name participates in engine logic). -/
structure Tool where
  name : String
  deriving Repr, DecidableEq

/-- Structure `Agent` from types.go, restricted to the fields the engine reads. -/
structure Agent where
  role : String
  modelVersion : String
  systemPrompt : String
  useContext : Bool
  contextFilePath : String
  useConversation : Bool
  tokens : String
  tools : List Tool
  deriving Repr, DecidableEq

/-- A role-tagged message; the Go code uses `map[string]string` with exactly
the keys `role` and `content`. -/
structure Message where
  role : String
  content : String
  deriving Repr, DecidableEq

/-- The slice of the `model` struct that the chain engine reads and writes
(UI widgets, tables and flags are out of scope). -/
structure ModelState where
  conversationHistory : List Message
  currentUserMessage : String
  userMessages : List String
  assistantResponses : List String
  agents : List Agent
  deriving Repr, DecidableEq

/-- Constant `defaultSystemPrompt` from types.go. -/
def defaultSystemPrompt : String := ""

/-! ## extractCodeBlocks (main.go) -/

/-- Loop of `extractCodeBlocks`: scans lines, toggling `inCodeBlock` at
fences; only blocks whose opening fence starts with ` ```go ` are kept,
and a block is emitted only when its closing fence is seen. -/
def extractCodeBlocksAux : List String → Bool → Bool → String → List String → List String
  | [], _, _, _, acc => acc
  | line :: rest, inBlock, isGo, cur, acc =>
    if goHasPrefix line "```" then
      if !inBlock then
        extractCodeBlocksAux rest true ( goHasPrefix line "```go") "" acc
      else
        extractCodeBlocksAux rest false false cur (if isGo then acc ++ [cur] else acc)
    else if inBlock && isGo then
      extractCodeBlocksAux rest inBlock isGo (cur ++ line ++ "\n") acc
    else
      extractCodeBlocksAux rest inBlock isGo cur acc

/-- Function `extractCodeBlocks` from main.go. -/
def extractCodeBlocks (input : String) : List String :=
  extractCodeBlocksAux (goLines input) false false "" []

/-! ## Token-budget resolution (ollama.go) -/

/-- Lines 119–122 of `processAgentChain`: parse `agent.Tokens`; on parse error
or a non-positive value fall back to 2048. -/
def chainContextWindow (tokens : String) : Int :=
  match atoi tokens with
  | none => 2048
  | some v => if v ≤ 0 then 2048 else v

/-- Lines 342–345 of `requestOllama`: same logic with fallback 16384. -/
def requestNumCtx (tokens : String) : Int :=
  match atoi tokens with
  | none => 16384
  | some v => if v ≤ 0 then 16384 else v

/-! ## System-prompt resolution (ollama.go lines 45–102) -/

/-- The fixed code-review instruction text (ollama.go lines 60–80, verbatim). -/
def codeReviewSystemPrompt : String :=
  "You are a code review assistant. Your primary task is to analyze and test Go code.\n" ++
  "Follow these steps for each code review:\n" ++
  "\n" ++
  "1. Use the check_go_code tool to analyze it\n" ++
  "    - you will ALWAYS use this tool on go code\n" ++
  "    - print any errors or warnings you get\n" ++
  "2. Analyze the tool\x27s output thoroughly:\n" ++
  "   - Build errors indicate the code won\x27t compile\n" ++
  "   - Linter warnings suggest potential issues\n" ++
  "   - Pay special attention to type errors and undefined variables\n" ++
  "3. Always provide:\n" ++
  "   - A clear summary of all issues found\n" ++
  "   - Specific suggestions for fixing each problem\n" ++
  "   - Example corrections where appropriate\n" ++
  "4. Even if the code passes checks, consider:\n" ++
  "   - Code organization\n" ++
  "   - Error handling\n" ++
  "   - Best practices\n" ++
  "   - Performance implications\n" ++
  "\n" ++
  "Important: Always use the check_go_code tool on any Go code you receive. " ++
  "Do not skip this step. Do not alter any code you recieve"

/-- The `agent.Tools` scan of ollama.go lines 47–53. -/
def hasCodeCheckerTool (agent : Agent) : Bool :=
  agent.tools.any (fun t => t.name = "check_go_code")

/-- System-prompt resolution of ollama.go lines 45–102: the code-review
override when the code-checker tool is enabled and the input has a Go code
block, otherwise template selection plus `\x7bcontext\x7d` substitution. -/
def resolveSystemPrompt (agent : Agent) (contextContent : String)
    (hasCodeChecker hasCode : Bool) : String :=
  if hasCodeChecker && hasCode then
    if contextContent ≠ "" then
      codeReviewSystemPrompt ++ "\n\nContext: " ++ contextContent
    else
      codeReviewSystemPrompt
  else
    let sp := if agent.systemPrompt = "" then defaultSystemPrompt else agent.systemPrompt
    if contextContent ≠ "" then
      if goContains sp "{context}" then
        goReplaceAll sp "{context}" contextContent
      else
        sp ++ "\n\nContext:\n" ++ contextContent
    else
      goTrimSpace (goReplaceAll sp "{context}" "")

/-! ## Code Tool Runner (types.go `executeGolangciLint`, `parseToolCall`) -/

/-- Environment of `executeGolangciLint`: `go/format`, the scratch
workspace, and the two external commands, as black boxes.
`formatSource` is `format.Source`; `mkdirTemp` is `os.MkdirTemp`;
`modInit`/`writeFile` may fail with an error message; `lintRun` and
`buildRun` return (combined output, command failed). -/
structure GoEnv where
  formatSource : String → Except String String
  mkdirTemp : Except String String
  modInit : String → Except String String
  writeFile : String → String → Option String
  lintRun : String → String × Bool
  buildRun : String → String × Bool

/-- types.go lines 277–279: prepend a package clause when the text does not
contain the substring `"package "`. -/
def completePackageClause (code : String) : String :=
  if !goContains code "package " then "package main\n\n" ++ code else code

/-- The report text of `executeGolangciLint` on a formatting failure. -/
def formattingErrorReport (errText code : String) : String :=
  "Code Formatting Error:\n" ++ errText ++ "\n\nOriginal code:\n```go\n" ++ code ++ "\n```"

/-- The final report composed by `executeGolangciLint` (types.go
lines 326–350). -/
def lintReport (formattedCode : String) (buildOutput : String) (buildFailed : Bool)
    (lintOutput : String) (lintFailed : Bool) : String :=
  "Code Analysis Results:\n\n" ++
  "Formatted Code:\n```go\n" ++ formattedCode ++ "\n```\n\n" ++
  (if buildFailed then
    "Build Errors:\n```\n" ++ buildOutput ++ "\n```\n\n"
  else
    "Build Status: Success ✓\n\n") ++
  "Linter Results:\n" ++
  (if lintFailed && lintOutput.length > 0 then
    "```\n" ++ lintOutput ++ "\n```\n"
  else
    "No linting issues found ✓\n")

/-- Function `executeGolangciLint` from types.go: returns the Go pair
`(string, error)` as `String × Option String` (`none` = nil error). -/
def executeGolangciLint (env : GoEnv) (code : String) : String × Option String :=
  let code := completePackageClause code
  match env.formatSource code with
  | .error e =>
    (formattingErrorReport e code, some ("code formatting failed: " ++ e))
  | .ok formattedCode =>
    match env.mkdirTemp with
    | .error e => ("", some ("failed to create temp directory: " ++ e))
    | .ok tmpDir =>
      match env.modInit tmpDir with
      | .error e => ("", some ("failed to initialize Go module: " ++ e))
      | .ok _ =>
        match env.writeFile (tmpDir ++ "/main.go") formattedCode with
        | some e => ("", some ("failed to write code file: " ++ e))
        | none =>
          let lintRes := env.lintRun tmpDir
          let buildRes := env.buildRun tmpDir
          (lintReport formattedCode buildRes.1 buildRes.2 lintRes.1 lintRes.2, none)

/-- The cleanup applied to the extracted `code` parameter (types.go
lines 268–271): unescape literal `\n` and `\"`, then trim quotes. -/
def cleanToolCode (code : String) : String :=
  trimQuotes (goReplaceAll (goReplaceAll code "\\n" "\n") "\\\"" "\"")

/-- Function `parseToolCall` from types.go, with JSON unmarshalling as a black box:
`unmarshal` yields the `parameters.code` field (`""` when the field is
absent, as for Go zero values) or a decode error. -/
def parseToolCall (unmarshal : String → Except String String)
    (jsonData : String) : Except String String :=
  match unmarshal jsonData with
  | .error e => .error ("failed to unmarshal tool call: " ++ e)
  | .ok c =>
    if c = "" then .error "code parameter not found in tool call"
    else .ok (cleanToolCode c)

/-! ## Inference service interface (ollama.go) -/

/-- One tool call in the decoded `/chat` response:
`function.name` and the raw JSON of `function.arguments`. -/
structure ToolCallReq where
  name : String
  arguments : String
  deriving Repr, DecidableEq

/-- The decoded `message` of a `/chat` response. -/
structure ApiMessage where
  content : String
  toolCalls : List ToolCallReq
  deriving Repr, DecidableEq

/-- A `/chat` request body as the engine builds it: the analysis follow-up
call sends no `options` (`numCtx = none`) and no tool schema. -/
structure ChatRequest where
  model : String
  messages : List Message
  numCtx : Option Int
  withTools : Bool
  deriving Repr, DecidableEq

/-- Outcome of `http.Post`: a transport failure, or a response with a
numeric status code, a status line (Go `resp.Status`) and a body. -/
inductive HttpOutcome where
  | fail (err : String)
  | resp (status : Nat) (statusLine : String) (body : String)
  deriving Repr, DecidableEq

/-- Environment of the chain engine: the file system, the HTTP service, the
JSON decoders for the three response shapes read by ollama.go, the
tool-call unmarshaller of `parseToolCall`, and the Go toolchain. -/
structure Env where
  fs : String → Except String String
  http : ChatRequest → HttpOutcome
  decodeApi : String → Except String ApiMessage
  decodeAnalysis : String → Except String String
  decodeRequest : String → Except String (Option String)
  unmarshalToolCall : String → Except String String
  goEnv : GoEnv

/-- ollama.go lines 211–219: `json.Marshal` of the map
`\x7b"name": name, "parameters": RawMessage(arguments)\x7d` (Go sorts map
keys, and the name is the already-matched `check_go_code`). -/
def toolCallJSON (arguments : String) : String :=
  "\x7b\"name\":\"check_go_code\",\"parameters\":" ++ arguments ++ "\x7d"

/-! ## processAgentChain (ollama.go lines 34–279) -/

/-- Context loading, ollama.go lines 38–43: the loader runs only when
`UseContext` is set and the path is neither empty nor the placeholder. -/
def loadAgentContext (env : Env) (agent : Agent) : Except String String :=
  if agent.useContext && agent.contextFilePath ≠ "" &&
      agent.contextFilePath ≠ "No context file selected" then
    match env.fs agent.contextFilePath with
    | .error e =>
      .error ("failed to load context for agent \x27" ++ agent.role ++ "\x27: " ++ e)
    | .ok c => .ok c
  else
    .ok ""

/-- The message list of the main `/chat` call (ollama.go lines 104–117). -/
def chainMessages (st : ModelState) (agent : Agent)
    (systemPrompt input : String) : List Message :=
  [⟨"system", systemPrompt⟩] ++
  (if agent.useConversation then st.conversationHistory else []) ++
  [⟨"user", input⟩]

/-- The main `/chat` request of `processAgentChain`
(ollama.go lines 104–163). -/
def chainRequest (st : ModelState) (agent : Agent)
    (contextContent input : String) : ChatRequest :=
  let hasCodeChecker := hasCodeCheckerTool agent
  let hasCode := (extractCodeBlocks input).length > 0
  { model := agent.modelVersion
    messages := chainMessages st agent
      (resolveSystemPrompt agent contextContent hasCodeChecker hasCode) input
    numCtx := some (chainContextWindow agent.tokens)
    withTools := hasCodeChecker && hasCode }

/-- The follow-up analysis round-trip taken when the tool reported an error
(ollama.go lines 227–269): replay the messages plus the assistant content
and a user message carrying the lint text; the response status is decoded
without a status check. -/
def analysisRoundTrip (env : Env) (agent : Agent) (messages : List Message)
    (assistantContent lintResult acc : String) : Except String String :=
  let analysisMessages := messages ++
    [⟨"assistant", assistantContent⟩,
     ⟨"user", "The code checking tool found some issues:\n\n" ++ lintResult ++
       "\n\nPlease analyze these results and provide specific recommendations."⟩]
  match env.http { model := agent.modelVersion, messages := analysisMessages,
                   numCtx := none, withTools := false } with
  | .fail e => .error ("failed to get lint analysis: " ++ e)
  | .resp _ _ body =>
    match env.decodeAnalysis body with
    | .error e => .error ("failed to decode analysis response: " ++ e)
    | .ok analysisContent =>
      .ok (acc ++ "\n\nLint Results and Analysis:\n" ++ lintResult ++
           "\n\nRecommendations:\n" ++ analysisContent)

/-- The lint step on already-cleaned code (ollama.go lines 226–273):
a tool error takes the analysis round-trip, a nil error appends the
report under `Code Check Results`. -/
def runLintStep (env : Env) (agent : Agent) (messages : List Message)
    (assistantContent acc code : String) : Except String String :=
  let lint := executeGolangciLint env.goEnv code
  match lint.2 with
  | some _ => analysisRoundTrip env agent messages assistantContent lint.1 acc
  | none => .ok (acc ++ "\n\nCode Check Results:\n" ++ lint.1)

/-- One iteration of the tool-call loop (ollama.go lines 209–275):
calls not named `check_go_code` are skipped. -/
def runToolCall (env : Env) (agent : Agent) (messages : List Message)
    (assistantContent acc : String) (tc : ToolCallReq) : Except String String :=
  if tc.name = "check_go_code" then
    match parseToolCall env.unmarshalToolCall (toolCallJSON tc.arguments) with
    | .error e => .error ("failed to parse tool call: " ++ e)
    | .ok code => runLintStep env agent messages assistantContent acc code
  else
    .ok acc

/-- The tool-call loop of ollama.go lines 208–276. -/
def runToolCalls (env : Env) (agent : Agent) (messages : List Message)
    (assistantContent : String) : String → List ToolCallReq → Except String String
  | acc, [] => .ok acc
  | acc, tc :: rest =>
    match runToolCall env agent messages assistantContent acc tc with
    | .error e => .error e
    | .ok acc' => runToolCalls env agent messages assistantContent acc' rest

/-- The marker whose absence adds the `Initial Analysis:` banner
(ollama.go line 202). -/
def toolCallMarker : String := "\x7b\"name\": \"check_go_code\""

/-- Composition of the agent's visible output before tool sections
(ollama.go lines 198–206). -/
def composeBase (agent : Agent) (hasCodeChecker hasCode : Bool)
    (content : String) : String :=
  "Response from " ++ agent.role ++ ":\n\n" ++
  (if hasCodeChecker && hasCode && !goContains content toolCallMarker then
    "Initial Analysis:\n"
  else "") ++
  content

/-- Continuation of `processAgentChain` after a 200 response (ollama.go lines 181–278):
decode, compose the banner and content, run the tool-call loop. -/
def handleChatBody (env : Env) (input : String) (agent : Agent)
    (messages : List Message) (body : String) : Except String String :=
  match env.decodeApi body with
  | .error e => .error ("failed to decode Ollama API response: " ++ e)
  | .ok apiMsg =>
    let hasCodeChecker := hasCodeCheckerTool agent
    let hasCode := (extractCodeBlocks input).length > 0
    runToolCalls env agent messages apiMsg.content
      (composeBase agent hasCodeChecker hasCode apiMsg.content) apiMsg.toolCalls

/-- Function `processAgentChain` from ollama.go: one agent's full turn as a function
of the environment. Like the Go function it reads the model state but does
not write it. -/
def processAgentChain (env : Env) (input : String) (st : ModelState)
    (agent : Agent) : Except String String :=
  match loadAgentContext env agent with
  | .error e => .error e
  | .ok contextContent =>
    let req := chainRequest st agent contextContent input
    match env.http req with
    | .fail e => .error ("failed to send request to Ollama API: " ++ e)
    | .resp status _ body =>
      if status ≠ 200 then .error ("Ollama API error: " ++ body)
      else handleChatBody env input agent req.messages body

/-! ## requestOllama (ollama.go lines 339–391) -/

/-- Function `requestOllama` from ollama.go: the direct request path. Its non-200
error carries `resp.Status` (the status line), and `decodeRequest` yields
`some content` only when `message.content` has the expected string shape. -/
def requestOllama (env : Env) (messages : List Message) (agent : Agent) :
    Except String String :=
  match env.http { model := agent.modelVersion, messages := messages,
                   numCtx := some (requestNumCtx agent.tokens),
                   withTools := false } with
  | .fail e => .error ("request failed: " ++ e)
  | .resp status statusLine body =>
    if status ≠ 200 then .error ("error: " ++ statusLine)
    else
      match env.decodeRequest body with
      | .error e => .error ("failed to decode response: " ++ e)
      | .ok (some content) => .ok content
      | .ok none => .error "unexpected response format or empty response"

/-! ## sendChatMessage (viewport.go lines 74–121) -/

/-- The agent loop of `sendChatMessage` (viewport.go lines 90–105):
threads `currentInput`, appends each assistant response to the
conversation history in place, and stops at the first error, which is
tagged with the failing agent's role. -/
def chainLoop (env : Env) (st : ModelState) (currentInput lastResponse : String) :
    List Agent → ModelState × Except (String × String) String
  | [] => (st, .ok lastResponse)
  | agent :: rest =>
    match processAgentChain env currentInput st agent with
    | .error e => (st, .error (agent.role, e))
    | .ok response =>
      chainLoop env
        { st with conversationHistory :=
            st.conversationHistory ++ [⟨"assistant", response⟩] }
        response response rest

/-- Result of one `sendChatMessage` invocation: the (possibly mutated)
model state, whether `saveCurrentChat` was reached, and the message
returned to the UI loop. -/
inductive SendResult where
  | noMessage
  | errorMsg (e : String)
  | success
  deriving Repr, DecidableEq

/-- Function `sendChatMessage` from viewport.go. The user message is appended to the
shared history before the loop; on success the final response is recorded
and the chat is persisted (`saved = true`); UI-only fields (loading flag,
view mode, textarea focus) are omitted. -/
def sendChatMessage (env : Env) (m : ModelState) :
    ModelState × Bool × SendResult :=
  if m.currentUserMessage = "" then (m, false, .noMessage)
  else
    let m1 := { m with conversationHistory :=
      m.conversationHistory ++ [⟨"user", m.currentUserMessage⟩] }
    if m1.agents.isEmpty then (m1, false, .errorMsg "no agents configured")
    else
      match chainLoop env m1 m1.currentUserMessage "" m1.agents with
      | (st, .error (role, e)) =>
        (st, false, .errorMsg ("error processing agent \x27" ++ role ++ "\x27: " ++ e))
      | (st, .ok lastResponse) =>
        ({ st with
            assistantResponses := st.assistantResponses ++ [lastResponse]
            userMessages := st.userMessages ++ [m.currentUserMessage]
            currentUserMessage := "" },
         true, .success)

/-! ## Concrete fixtures used in witnesses and counterexamples -/

/-- A Go toolchain in which every step succeeds and finds nothing. -/
def goEnvOk : GoEnv :=
  ⟨fun s => .ok s, .ok "/tmp/t", fun _ => .ok "", fun _ _ => none,
   fun _ => ("", false), fun _ => ("", false)⟩

/-- A Go toolchain whose formatter always fails with `bad syntax`. -/
def goEnvFmtFail : GoEnv :=
  ⟨fun _ => .error "bad syntax", .ok "/tmp/t", fun _ => .ok "", fun _ _ => none,
   fun _ => ("", false), fun _ => ("", false)⟩

/-- A Go toolchain whose formatter echoes its input as the error text,
so the error reveals exactly the text the checker formatted. -/
def goEnvEcho : GoEnv :=
  ⟨fun s => .error s, .ok "/tmp/t", fun _ => .ok "", fun _ _ => none,
   fun _ => ("", false), fun _ => ("", false)⟩

/-- An inference service that always answers 200 with content `hello` and
no tool calls. -/
def envOk : Env :=
  ⟨fun _ => .error "no file", fun _ => .resp 200 "200 OK" "body",
   fun _ => .ok ⟨"hello", []⟩, fun _ => .ok "ANALYSIS",
   fun _ => .ok (some "content"), fun _ => .ok "code", goEnvOk⟩

/-- Same service but the Go formatter fails. -/
def envFmtFail : Env :=
  ⟨fun _ => .error "no file", fun _ => .resp 200 "200 OK" "resp",
   fun _ => .ok ⟨"hello", []⟩, fun _ => .ok "ANALYSIS",
   fun _ => .ok (some "content"), fun _ => .ok "code", goEnvFmtFail⟩

/-- A service whose every response is `204 No Content` with body `hello`. -/
def env204 : Env :=
  ⟨fun _ => .error "no file", fun _ => .resp 204 "204 No Content" "hello",
   fun _ => .ok ⟨"x", []⟩, fun _ => .ok "ANALYSIS",
   fun _ => .ok (some "content"), fun _ => .ok "code", goEnvOk⟩

/-- A service that answers model `mB` with a 500 error and everything else
with 200/`hello`: makes the second of two agents fail. -/
def envAB : Env :=
  ⟨fun _ => .error "no file",
   fun req => if req.model = "mB" then .resp 500 "500 Internal Server Error" "boom"
              else .resp 200 "200 OK" "ok",
   fun _ => .ok ⟨"hello", []⟩, fun _ => .ok "ANALYSIS",
   fun _ => .ok (some "content"), fun _ => .ok "code", goEnvOk⟩

/-- A service whose tool-call arguments never unmarshal. -/
def envBadTool : Env :=
  ⟨fun _ => .error "no file", fun _ => .resp 200 "200 OK" "body",
   fun _ => .ok ⟨"hello", []⟩, fun _ => .ok "ANALYSIS",
   fun _ => .ok (some "content"), fun _ => .error "bad json", goEnvOk⟩

/-- Agent `A` answers via model `mA`; no context, no tools. -/
def agentA : Agent := ⟨"A", "mA", "", false, "", false, "2048", []⟩

/-- Agent `B` targets model `mB` (used to make only the second agent fail). -/
def agentB : Agent := ⟨"B", "mB", "", false, "", false, "2048", []⟩

/-- An agent with the code checker enabled and its own prompt template. -/
def agentChecker : Agent :=
  ⟨"rev", "m", "MY PROMPT", false, "", false, "2048", [⟨"check_go_code"⟩]⟩

/-- An empty session about to send `hi`. -/
def st0 : ModelState := ⟨[], "hi", [], [], []⟩

/-- An input whose only fenced code block is a Python block. -/
def pyInput : String := "```python\nx = 1\n```"

/-- An input with one closed Go fenced code block. -/
def goInput : String := "```go\nfunc f()\n```"

/-- Code with `package` only inside a comment: no package declaration,
but the substring `"package "` is present. -/
def commentPkgInput : String := "// package x\nvar v = 1"

/-! ## C5: token-budget resolution -/

/-- C5. Token budget resolution: in the chain path `"0"`, `"-5"`, `"abc"`
and `""` all resolve to 2048 and `"4096"` to 4096; in the direct request
path every non-numeric or non-positive value resolves to 16384 instead,
and the two defaults differ. -/
theorem token_budget_resolution :
    (chainContextWindow "0" = 2048 ∧ chainContextWindow "-5" = 2048 ∧
     chainContextWindow "abc" = 2048 ∧ chainContextWindow "" = 2048 ∧
     chainContextWindow "4096" = 4096) ∧
    (∀ s v, (atoi s = none ∨ (atoi s = some v ∧ v ≤ 0)) →
      chainContextWindow s = 2048 ∧ requestNumCtx s = 16384) ∧
    requestNumCtx "4096" = 4096 ∧
    ((2048 : Int) ≠ 16384) := by
  refine ⟨⟨rfl, rfl, rfl, rfl, rfl⟩, ?_, rfl, by decide⟩
  intro s v h
  rcases h with h | ⟨h, hv⟩
  · simp [chainContextWindow, requestNumCtx, h]
  · simp [chainContextWindow, requestNumCtx, h, hv]

/-- Witness for C5 at the concrete budget string `"abc"`. -/
theorem token_budget_resolution_witness :
    chainContextWindow "abc" = 2048 ∧ requestNumCtx "abc" = 16384 :=
  token_budget_resolution.2.1 "abc" 0 (Or.inl rfl)

/-! ## C4: context substitution -/

/-- The template actually used is the agent's own prompt in every case,
because the fallback default is itself the empty string. -/
theorem systemPrompt_select (s : String) :
    (if s = "" then defaultSystemPrompt else s) = s := by
  by_cases h : s = "" <;> simp [h, defaultSystemPrompt]

/-- C4. Context substitution: outside the code-review override, the system
message of the issued request is the template with every `\x7bcontext\x7d`
replaced by the context when both are present, the template plus a
separator and the context when the placeholder is absent, and the
placeholder-stripped trimmed template when the context is empty. -/
theorem context_substitution :
    ∀ (st : ModelState) (agent : Agent) (ctx input : String),
      (hasCodeCheckerTool agent = false ∨ extractCodeBlocks input = []) →
      (ctx ≠ "" → goContains agent.systemPrompt "{context}" = true →
        (chainRequest st agent ctx input).messages.head? =
          some ⟨"system", goReplaceAll agent.systemPrompt "{context}" ctx⟩) ∧
      (ctx ≠ "" → goContains agent.systemPrompt "{context}" = false →
        (chainRequest st agent ctx input).messages.head? =
          some ⟨"system", agent.systemPrompt ++ "\n\nContext:\n" ++ ctx⟩) ∧
      (ctx = "" →
        (chainRequest st agent ctx input).messages.head? =
          some ⟨"system", goTrimSpace (goReplaceAll agent.systemPrompt "{context}" "")⟩) := by
  intro st agent ctx input hover
  have hcond : (hasCodeCheckerTool agent && decide ((extractCodeBlocks input).length > 0)) = false := by
    rcases hover with h | h <;> simp [h]
  refine ⟨?_, ?_, ?_⟩ <;>
    intro h1 <;>
    first
      | (intro h2
         simp [chainRequest, chainMessages, resolveSystemPrompt, hcond,
               systemPrompt_select, h1, h2])
      | simp [chainRequest, chainMessages, resolveSystemPrompt, hcond,
              systemPrompt_select, h1]

/-- Witness for C4: a template with a placeholder and context `CTX`. -/
theorem context_substitution_witness :
    (chainRequest st0 ⟨"r", "m", "Hello {context}!", false, "", false, "2048", []⟩
        "CTX" "hi").messages.head? = some ⟨"system", "Hello CTX!"⟩ := by
  have h := (context_substitution st0
    ⟨"r", "m", "Hello {context}!", false, "", false, "2048", []⟩ "CTX" "hi"
    (Or.inl rfl)).1 (by decide) rfl
  exact h.trans rfl

/-! ## C3: tool-override precedence -/

/-- Counterexample to C3 as stated: the input contains a fenced code block
(a Python one), the agent has the code checker enabled, yet the system
prompt sent is the agent's own template, not the review-assistant text:
only ` ```go `-opened blocks trigger the override. -/
theorem tool_override_nongo_counterexample :
    hasCodeCheckerTool agentChecker = true ∧
    extractCodeBlocks pyInput = [] ∧
    (chainRequest st0 agentChecker "" pyInput).messages.head? =
      some ⟨"system", "MY PROMPT"⟩ ∧
    "MY PROMPT" ≠ codeReviewSystemPrompt := by
  exact ⟨rfl, rfl, rfl, by decide⟩

/-- C3 (amended). When the agent has the code-checker tool and the input
contains at least one closed fenced block opened with ` ```go `, the system
message of the issued request is the fixed review-assistant text, with the
context appended after `Context: ` when present, regardless of the agent's
template. -/
theorem tool_override_precedence :
    ∀ (st : ModelState) (agent : Agent) (ctx input : String),
      hasCodeCheckerTool agent = true →
      (extractCodeBlocks input).length > 0 →
      (chainRequest st agent ctx input).messages.head? =
        some ⟨"system",
          if ctx ≠ "" then codeReviewSystemPrompt ++ "\n\nContext: " ++ ctx
          else codeReviewSystemPrompt⟩ := by
  intro st agent ctx input h1 h2
  simp [chainRequest, chainMessages, resolveSystemPrompt, h1, h2]

/-- Witness for C3: a Go block and an agent whose template is overridden. -/
theorem tool_override_precedence_witness :
    (chainRequest st0 agentChecker "" goInput).messages.head? =
      some ⟨"system", codeReviewSystemPrompt⟩ := by
  have h := tool_override_precedence st0 agentChecker "" goInput rfl (by decide)
  exact h.trans rfl

/-! ## C9: package-clause completion -/

/-- The spec's notion, stated from its words: the code text has a package
declaration when some line begins with `package `. -/
def specHasPackageDecl (code : String) : Bool :=
  (goLines code).any (fun l => goHasPrefix l "package ")

/-- Counterexample to C9 as stated: `commentPkgInput` lacks a package
declaration, yet no package clause is prepended (the code's gate is the
substring `"package "`, which a comment satisfies); the echoing formatter
shows that the checker formatted the unmodified input. -/
theorem package_clause_counterexample :
    specHasPackageDecl commentPkgInput = false ∧
    completePackageClause commentPkgInput = commentPkgInput ∧
    (executeGolangciLint goEnvEcho commentPkgInput).2 =
      some ("code formatting failed: " ++ commentPkgInput) := by
  refine ⟨by decide, rfl, rfl⟩

/-- C9 (amended). The checker prepends `package main` exactly when the code
text does not contain the substring `"package "` anywhere (even in a
comment or string literal), passing everything else through unmodified,
and the formatted text is this completed text. -/
theorem package_clause_completion :
    ∀ code : String,
      (goContains code "package " = false →
        completePackageClause code = "package main\n\n" ++ code) ∧
      (goContains code "package " = true → completePackageClause code = code) ∧
      (∀ (genv : GoEnv) (e : String),
        genv.formatSource (completePackageClause code) = .error e →
        executeGolangciLint genv code =
          (formattingErrorReport e (completePackageClause code),
           some ("code formatting failed: " ++ e))) := by
  intro code
  refine ⟨fun h => by simp [completePackageClause, h],
          fun h => by simp [completePackageClause, h],
          fun genv e h => by simp [executeGolangciLint, h]⟩

/-- Witness for C9 on a snippet without the substring. -/
theorem package_clause_completion_witness :
    completePackageClause "var v = 1" = "package main\n\nvar v = 1" := by
  have h := (package_clause_completion "var v = 1").1 (by decide)
  exact h.trans rfl

/-! ## Agent-congruence helpers

The engine reads an agent only through its fields; these lemmas make the
dependency explicit: the tool round-trip depends only on `modelVersion`,
the response composition additionally on `role` and `tools`. -/

theorem runToolCall_model_congr (env : Env) (a b : Agent)
    (h : a.modelVersion = b.modelVersion) (messages : List Message)
    (content acc : String) (tc : ToolCallReq) :
    runToolCall env a messages content acc tc =
      runToolCall env b messages content acc tc := by
  unfold runToolCall runLintStep analysisRoundTrip
  rw [h]

theorem runToolCalls_model_congr (env : Env) (a b : Agent)
    (h : a.modelVersion = b.modelVersion) (messages : List Message)
    (content : String) :
    ∀ (tcs : List ToolCallReq) (acc : String),
      runToolCalls env a messages content acc tcs =
        runToolCalls env b messages content acc tcs
  | [], _ => rfl
  | tc :: rest, acc => by
    simp only [runToolCalls]
    rw [runToolCall_model_congr env a b h messages content acc tc]
    cases runToolCall env b messages content acc tc with
    | error e => rfl
    | ok acc' => exact runToolCalls_model_congr env a b h messages content rest acc'

theorem handleChatBody_agent_congr (env : Env) (input : String) (a b : Agent)
    (hr : a.role = b.role) (hm : a.modelVersion = b.modelVersion)
    (ht : a.tools = b.tools) (messages : List Message) (body : String) :
    handleChatBody env input a messages body =
      handleChatBody env input b messages body := by
  unfold handleChatBody
  cases hd : env.decodeApi body with
  | error e => rfl
  | ok msg =>
    simp only [composeBase, hasCodeCheckerTool, hr, hm, ht]
    exact runToolCalls_model_congr env a b hm messages msg.content msg.toolCalls _

/-! ## C10: context gating on blank or placeholder paths -/

/-- C10. When `useContext` is set but the path is empty or the placeholder
`No context file selected`, no context load is attempted (the result holds
for every file system and never fails) and the turn is identical to one
with `useContext` unset. -/
theorem context_gating_blank_path :
    ∀ (env : Env) (st : ModelState) (input : String) (agent : Agent),
      agent.useContext = true →
      (agent.contextFilePath = "" ∨
       agent.contextFilePath = "No context file selected") →
      (∀ f : String → Except String String,
        loadAgentContext { env with fs := f } agent = .ok "") ∧
      processAgentChain env input st agent =
        processAgentChain env input st { agent with useContext := false } := by
  intro env st input agent hu hp
  have hctx : ∀ (e' : Env) (x : Agent), x.contextFilePath = agent.contextFilePath →
      loadAgentContext e' x = .ok "" := by
    intro e' x hx
    rcases hp with h | h <;>
      · have hx0 := hx.trans h
        simp [loadAgentContext, hx0]
  refine ⟨fun f => hctx _ _ rfl, ?_⟩
  obtain ⟨r, mv, sp, uc, cf, ucv, tk, tl⟩ := agent
  simp only [processAgentChain]
  rw [hctx env ⟨r, mv, sp, uc, cf, ucv, tk, tl⟩ rfl,
      hctx env ⟨r, mv, sp, false, cf, ucv, tk, tl⟩ rfl]
  have hreq : chainRequest st ⟨r, mv, sp, uc, cf, ucv, tk, tl⟩ "" input =
      chainRequest st ⟨r, mv, sp, false, cf, ucv, tk, tl⟩ "" input := rfl
  simp only [hreq]
  cases hh : env.http (chainRequest st ⟨r, mv, sp, false, cf, ucv, tk, tl⟩ "" input) with
  | fail e => rfl
  | resp status line body =>
    dsimp only
    by_cases hs : status = 200
    · subst hs
      rw [if_neg (fun hne => hne rfl), if_neg (fun hne => hne rfl)]
      exact handleChatBody_agent_congr env input
        ⟨r, mv, sp, uc, cf, ucv, tk, tl⟩ ⟨r, mv, sp, false, cf, ucv, tk, tl⟩
        rfl rfl rfl _ _
    · simp [hs]

/-- Witness for C10 at an agent with `useContext = true` and a blank path. -/
theorem context_gating_blank_path_witness :
    loadAgentContext envOk ⟨"A", "mA", "S {context} E", true, "", false, "2048", []⟩ = .ok "" ∧
    processAgentChain envOk "hi" st0 ⟨"A", "mA", "S {context} E", true, "", false, "2048", []⟩ =
      processAgentChain envOk "hi" st0
        ⟨"A", "mA", "S {context} E", false, "", false, "2048", []⟩ := by
  have h := context_gating_blank_path envOk st0 "hi"
    ⟨"A", "mA", "S {context} E", true, "", false, "2048", []⟩ rfl (Or.inl rfl)
  exact ⟨h.1 envOk.fs, h.2⟩

/-! ## Output-extension helpers for the tool loop -/

/-- Every successful tool-call iteration only appends to the accumulated
output. -/
theorem runToolCall_extends (env : Env) (a : Agent) (messages : List Message)
    (content acc acc' : String) (tc : ToolCallReq)
    (h : runToolCall env a messages content acc tc = .ok acc') :
    ∃ s, acc' = acc ++ s := by
  unfold runToolCall runLintStep analysisRoundTrip at h
  dsimp only at h
  split at h
  · split at h
    · simp at h
    · split at h
      · split at h
        · simp at h
        · split at h
          · simp at h
          · exact ⟨_, by rw [← Except.ok.inj h]; simp only [String.append_assoc]; rfl⟩
      · exact ⟨_, by rw [← Except.ok.inj h]; simp only [String.append_assoc]; rfl⟩
  · exact ⟨"", (Except.ok.inj h).symm.trans (String.append_empty acc).symm⟩

/-- The whole tool-call loop only appends to the composed output. -/
theorem runToolCalls_extends (env : Env) (a : Agent) (messages : List Message)
    (content : String) :
    ∀ (tcs : List ToolCallReq) (acc v : String),
      runToolCalls env a messages content acc tcs = .ok v → ∃ s, v = acc ++ s
  | [], acc, v, h =>
    ⟨"", (Except.ok.inj h).symm.trans (String.append_empty acc).symm⟩
  | tc :: rest, acc, v, h => by
    simp only [runToolCalls] at h
    cases hc : runToolCall env a messages content acc tc with
    | error e => rw [hc] at h; exact absurd h (by simp)
    | ok acc' =>
      rw [hc] at h
      obtain ⟨s1, hs1⟩ := runToolCall_extends env a messages content acc acc' tc hc
      obtain ⟨s2, hs2⟩ := runToolCalls_extends env a messages content rest acc' v h
      exact ⟨s1 ++ s2, by rw [hs2, hs1, String.append_assoc]⟩

/-! ## C2: sequential chaining -/

/-- C2. Sequential chaining: the request issued for any agent carries the
threaded input as its final user-role message; the loop hands each agent's
full composed response to the next agent as its input (appending it to the
shared history); and every successful composed response begins with the
`Response from \x7brole\x7d:` banner. -/
theorem sequential_chaining :
    (∀ (st : ModelState) (agent : Agent) (ctx input : String),
      (chainRequest st agent ctx input).messages.getLast? = some ⟨"user", input⟩) ∧
    (∀ (env : Env) (st : ModelState) (ci lr : String) (a : Agent) (rest : List Agent),
      chainLoop env st ci lr (a :: rest) =
        match processAgentChain env ci st a with
        | .error e => (st, .error (a.role, e))
        | .ok r =>
          chainLoop env
            { st with conversationHistory :=
                st.conversationHistory ++ [⟨"assistant", r⟩] } r r rest) ∧
    (∀ (env : Env) (input : String) (st : ModelState) (a : Agent) (r : String),
      processAgentChain env input st a = .ok r →
      ∃ tail, r = "Response from " ++ a.role ++ ":\n\n" ++ tail) := by
  refine ⟨?_, ?_, ?_⟩
  · intro st agent ctx input
    show (chainMessages st agent _ input).getLast? = _
    unfold chainMessages
    rw [List.getLast?_append_of_ne_nil _ (by simp)]
    rfl
  · intro env st ci lr a rest
    rfl
  · intro env input st a r h
    unfold processAgentChain at h
    cases hctx : loadAgentContext env a with
    | error e => rw [hctx] at h; exact absurd h (by simp)
    | ok ctx =>
      rw [hctx] at h
      dsimp only at h
      cases hh : env.http (chainRequest st a ctx input) with
      | fail e => rw [hh] at h; exact absurd h (by simp)
      | resp status line body =>
        rw [hh] at h
        dsimp only at h
        by_cases hs : status = 200
        · rw [if_neg (by simp [hs])] at h
          unfold handleChatBody at h
          cases hd : env.decodeApi body with
          | error e => rw [hd] at h; exact absurd h (by simp)
          | ok msg =>
            rw [hd] at h
            obtain ⟨s, hs'⟩ := runToolCalls_extends env a
              (chainRequest st a ctx input).messages msg.content msg.toolCalls _ r h
            exact ⟨_, by
              rw [hs']; unfold composeBase; simp only [String.append_assoc]; rfl⟩
        · rw [if_pos hs] at h
          exact absurd h (by simp)

/-- Witness for C2: a successful concrete turn whose output carries the
banner of agent `A`. -/
theorem sequential_chaining_witness :
    ∃ tail, "Response from A:\n\nhello" =
      "Response from " ++ agentA.role ++ ":\n\n" ++ tail :=
  sequential_chaining.2.2 envOk "hi" st0 agentA "Response from A:\n\nhello" rfl

/-! ## C1: fail-fast behaviour of a chain run -/

/-- Every `chainLoop` run only appends assistant messages to the history it
started from. -/
theorem chainLoop_extends (env : Env) :
    ∀ (agents : List Agent) (st : ModelState) (ci lr : String),
      ∃ tail, (chainLoop env st ci lr agents).1.conversationHistory =
          st.conversationHistory ++ tail ∧
        ∀ msg ∈ tail, msg.role = "assistant"
  | [], st, ci, lr => ⟨[], by simp [chainLoop]⟩
  | a :: rest, st, ci, lr => by
    simp only [chainLoop]
    cases hp : processAgentChain env ci st a with
    | error e => exact ⟨[], by simp⟩
    | ok r =>
      obtain ⟨tail, h1, h2⟩ := chainLoop_extends env rest
        { st with conversationHistory :=
            st.conversationHistory ++ [⟨"assistant", r⟩] } r r
      refine ⟨⟨"assistant", r⟩ :: tail, ?_, ?_⟩
      · simpa [List.append_assoc] using h1
      · intro msg hm
        rcases List.mem_cons.1 hm with h | h
        · rw [h]
        · exact h2 msg h

/-- Once an agent fails, the loop's result does not depend on the agents
after it: it returns the state reached so far and the tagged error. -/
theorem chainLoop_prefix_error (env : Env) :
    ∀ (done : List Agent) (st : ModelState) (ci lr : String) (st' : ModelState)
      (r' : String) (bad : Agent) (rest : List Agent) (e : String),
      chainLoop env st ci lr done = (st', .ok r') →
      processAgentChain env (if done.isEmpty then ci else r') st' bad = .error e →
      chainLoop env st ci lr (done ++ bad :: rest) = (st', .error (bad.role, e))
  | [], st, ci, lr, st', r', bad, rest, e => by
    intro h1 h2
    simp only [chainLoop] at h1
    obtain ⟨rfl, rfl⟩ : st = st' ∧ lr = r' := by
      constructor <;> [exact congrArg Prod.fst h1;
        exact Except.ok.inj (congrArg Prod.snd h1)]
    simp only [List.isEmpty_nil, if_true] at h2
    simp only [List.nil_append, chainLoop]
    rw [show processAgentChain env ci st bad = Except.error e from h2]
  | a :: ds, st, ci, lr, st', r', bad, rest, e => by
    intro h1 h2
    simp only [chainLoop] at h1 ⊢
    cases hp : processAgentChain env ci st a with
    | error err => rw [hp] at h1; exact absurd (congrArg Prod.snd h1) (by simp)
    | ok r =>
      rw [hp] at h1
      have hnext : (if ds.isEmpty then r else r') = r' := by
        cases ds with
        | nil =>
          simp only [chainLoop] at h1
          have := Except.ok.inj (congrArg Prod.snd h1)
          simp [this]
        | cons x xs => rfl
      have h2' : processAgentChain env r' st' bad = Except.error e := h2
      exact chainLoop_prefix_error env ds _ r r st' r' bad rest e h1
        (by rw [hnext]; exact h2')

/-- C1 (amended). If some agent of the chain fails after a prefix of agents
completed, the run returns the tagged error, agents after the failing one
are never invoked (the result does not depend on them), and nothing is
persisted — but the shared conversation history is not rolled back: it
keeps the new user message and one assistant message per completed agent
instead of reverting to the pre-chain transcript. -/
theorem chain_abort_failfast
    (env : Env) (m : ModelState) (done : List Agent) (bad : Agent)
    (rest : List Agent) (st' : ModelState) (r' e : String)
    (h0 : m.currentUserMessage ≠ "")
    (h1 : m.agents = done ++ bad :: rest)
    (h2 : chainLoop env
        { m with conversationHistory :=
            m.conversationHistory ++ [⟨"user", m.currentUserMessage⟩] }
        m.currentUserMessage "" done = (st', .ok r'))
    (h3 : processAgentChain env (if done.isEmpty then m.currentUserMessage else r')
        st' bad = .error e) :
    sendChatMessage env m =
      (st', false,
       .errorMsg ("error processing agent \x27" ++ bad.role ++ "\x27: " ++ e)) ∧
    ∃ tail, st'.conversationHistory =
        m.conversationHistory ++ ⟨"user", m.currentUserMessage⟩ :: tail ∧
      ∀ msg ∈ tail, msg.role = "assistant" := by
  constructor
  · have hrun := chainLoop_prefix_error env done
      { m with conversationHistory :=
          m.conversationHistory ++ [⟨"user", m.currentUserMessage⟩] }
      m.currentUserMessage "" st' r' bad rest e h2 h3
    unfold sendChatMessage
    dsimp only
    rw [if_neg h0, if_neg (show ¬(m.agents.isEmpty = true) by simp [h1]), h1]
    rw [h1] at hrun
    rw [hrun]
  · obtain ⟨tail, ht1, ht2⟩ := chainLoop_extends env done
      { m with conversationHistory :=
          m.conversationHistory ++ [⟨"user", m.currentUserMessage⟩] }
      m.currentUserMessage ""
    rw [h2] at ht1
    exact ⟨tail, by simpa [List.append_assoc] using ht1, ht2⟩

/-- Counterexample to C1 as stated: agent `A` succeeds, agent `B` gets a
500 response, the run aborts — but the conversation history visible to the
caller is not the original (empty) pre-chain transcript: it retains the
user message and agent `A`'s assistant message. Persistence is indeed
withheld (`saved = false`). -/
theorem chain_abort_transcript_counterexample :
    sendChatMessage envAB ⟨[], "hi", [], [], [agentA, agentB]⟩ =
      (⟨[⟨"user", "hi"⟩, ⟨"assistant", "Response from A:\n\nhello"⟩],
        "hi", [], [], [agentA, agentB]⟩,
       false,
       .errorMsg "error processing agent \x27B\x27: Ollama API error: boom") ∧
    (sendChatMessage envAB ⟨[], "hi", [], [], [agentA, agentB]⟩).1.conversationHistory ≠
      ([] : List Message) := by
  exact ⟨rfl, by decide⟩

/-- Witness for C1's amended theorem at the same concrete two-agent run. -/
theorem chain_abort_failfast_witness :
    sendChatMessage envAB ⟨[], "hi", [], [], [agentA, agentB]⟩ =
      (⟨[⟨"user", "hi"⟩, ⟨"assistant", "Response from A:\n\nhello"⟩],
        "hi", [], [], [agentA, agentB]⟩,
       false,
       .errorMsg ("error processing agent \x27" ++ agentB.role ++ "\x27: " ++
         "Ollama API error: boom")) ∧
    ∃ tail,
      ([⟨"user", "hi"⟩, ⟨"assistant", "Response from A:\n\nhello"⟩] :
          List Message) =
        [] ++ ⟨"user", "hi"⟩ :: tail ∧
      ∀ msg ∈ tail, msg.role = "assistant" :=
  chain_abort_failfast envAB ⟨[], "hi", [], [], [agentA, agentB]⟩
    [agentA] agentB [] _ "Response from A:\n\nhello" "Ollama API error: boom"
    (by decide) rfl rfl rfl

/-! ## C6: formatting failure handling -/

/-- Counterexample to C6 as stated: a formatting failure makes
`executeGolangciLint` return a non-nil error next to the report, and the
caller therefore takes the analysis path — a second model call under
`Lint Results and Analysis` — not the `Code Check Results` success path. -/
theorem formatting_failure_counterexample :
    (executeGolangciLint goEnvFmtFail "var v = 1").2 =
      some "code formatting failed: bad syntax" ∧
    runLintStep envFmtFail agentA [] "hello" "ACC" "var v = 1" =
      .ok ("ACC" ++ "\n\nLint Results and Analysis:\n" ++
        formattingErrorReport "bad syntax" "package main\n\nvar v = 1" ++
        "\n\nRecommendations:\n" ++ "ANALYSIS") :=
  ⟨rfl, rfl⟩

/-- C6 (amended). A formatting failure yields the report text (formatter
error plus the unformatted, package-completed code) together with a non-nil
error; the caller absorbs any tool error into the analysis round-trip
instead of aborting, and a pipeline failure (no scratch workspace) yields
an empty report with an error, absorbed the same way. -/
theorem formatting_failure_absorbed :
    (∀ (env : Env) (code e : String),
      env.goEnv.formatSource (completePackageClause code) = .error e →
      executeGolangciLint env.goEnv code =
        (formattingErrorReport e (completePackageClause code),
         some ("code formatting failed: " ++ e)) ∧
      ∀ (agent : Agent) (messages : List Message) (content acc : String),
        runLintStep env agent messages content acc code =
          analysisRoundTrip env agent messages content
            (formattingErrorReport e (completePackageClause code)) acc) ∧
    (∀ (genv : GoEnv) (code f e : String),
      genv.formatSource (completePackageClause code) = .ok f →
      genv.mkdirTemp = .error e →
      executeGolangciLint genv code =
        ("", some ("failed to create temp directory: " ++ e))) := by
  constructor
  · intro env code e h
    have hx : executeGolangciLint env.goEnv code =
        (formattingErrorReport e (completePackageClause code),
         some ("code formatting failed: " ++ e)) := by
      unfold executeGolangciLint
      dsimp only
      rw [h]
    refine ⟨hx, ?_⟩
    intro agent messages content acc
    simp only [runLintStep, hx]
  · intro genv code f e h1 h2
    unfold executeGolangciLint
    dsimp only
    rw [h1, h2]

/-- Witness for C6 at the concrete failing formatter. -/
theorem formatting_failure_absorbed_witness :
    executeGolangciLint envFmtFail.goEnv "var v = 1" =
      (formattingErrorReport "bad syntax" (completePackageClause "var v = 1"),
       some ("code formatting failed: " ++ "bad syntax")) :=
  (formatting_failure_absorbed.1 envFmtFail "var v = 1" "bad syntax" rfl).1

/-! ## C7: tool-call argument cleanup -/

/-- C7. Tool-call argument cleanup: a successfully extracted non-empty code
parameter is unescaped (literal `\n` to newline, then literal `\"` to
quote) and quote-trimmed; an unmarshal failure or an absent/empty code
parameter turns the tool-call loop into a chain-aborting error, and any
agent error propagates out of the loop unchanged. -/
theorem tool_call_cleanup :
    (∀ (unmarshal : String → Except String String) (jsonData c : String),
      unmarshal jsonData = .ok c → c ≠ "" →
      parseToolCall unmarshal jsonData =
        .ok (trimQuotes (goReplaceAll (goReplaceAll c "\\n" "\n") "\\\"" "\""))) ∧
    (∀ (env : Env) (agent : Agent) (messages : List Message)
       (content acc e : String) (tc : ToolCallReq) (rest : List ToolCallReq),
      tc.name = "check_go_code" →
      env.unmarshalToolCall (toolCallJSON tc.arguments) = .error e →
      runToolCalls env agent messages content acc (tc :: rest) =
        .error ("failed to parse tool call: " ++
          ("failed to unmarshal tool call: " ++ e))) ∧
    (∀ (env : Env) (agent : Agent) (messages : List Message)
       (content acc : String) (tc : ToolCallReq) (rest : List ToolCallReq),
      tc.name = "check_go_code" →
      env.unmarshalToolCall (toolCallJSON tc.arguments) = .ok "" →
      runToolCalls env agent messages content acc (tc :: rest) =
        .error "failed to parse tool call: code parameter not found in tool call") ∧
    (∀ (env : Env) (st : ModelState) (ci lr e : String) (a : Agent)
       (rest : List Agent),
      processAgentChain env ci st a = .error e →
      chainLoop env st ci lr (a :: rest) = (st, .error (a.role, e))) := by
  refine ⟨?_, ?_, ?_, ?_⟩
  · intro u j c h hne
    unfold parseToolCall
    rw [h]
    dsimp only
    rw [if_neg hne]
    rfl
  · intro env agent messages content acc e tc rest hn hu
    simp only [runToolCalls, runToolCall, parseToolCall, hu, if_pos hn]
  · intro env agent messages content acc tc rest hn hu
    simp [runToolCalls, runToolCall, parseToolCall, hu, if_pos hn]
  · intro env st ci lr e a rest h
    simp only [chainLoop, h]

/-- Witness for C7 at a concrete unmarshal failure. -/
theorem tool_call_cleanup_witness :
    runToolCalls envBadTool agentA [] "c" "ACC" [⟨"check_go_code", "X"⟩] =
      .error ("failed to parse tool call: " ++
        ("failed to unmarshal tool call: " ++ "bad json")) :=
  tool_call_cleanup.2.1 envBadTool agentA [] "c" "ACC" "bad json"
    ⟨"check_go_code", "X"⟩ [] rfl rfl

/-! ## C8: HTTP status handling -/

/-- Counterexample to C8 as stated: a `204 No Content` response — a 2xx
status — is rejected on status grounds by both call paths, and the direct
request path's error carries the status line, not the body (`hello`). -/
theorem non2xx_status_counterexample :
    (200 ≤ 204 ∧ 204 < 300) ∧
    processAgentChain env204 "hi" st0 agentA =
      .error ("Ollama API error: " ++ "hello") ∧
    requestOllama env204 [] agentA = .error ("error: " ++ "204 No Content") :=
  ⟨⟨by decide, by decide⟩, rfl, rfl⟩

/-- C8 (amended). Both chat-completion call paths reject exactly the
responses whose status differs from 200: the chain path's error carries the
raw body, the direct path's error carries the status line, and a status of
exactly 200 is never rejected on status grounds. -/
theorem status_handling :
    (∀ (env : Env) (input : String) (st : ModelState) (agent : Agent)
       (ctx : String) (status : Nat) (line body : String),
      loadAgentContext env agent = .ok ctx →
      env.http (chainRequest st agent ctx input) = .resp status line body →
      (status ≠ 200 →
        processAgentChain env input st agent =
          .error ("Ollama API error: " ++ body)) ∧
      (status = 200 →
        processAgentChain env input st agent =
          handleChatBody env input agent
            (chainRequest st agent ctx input).messages body)) ∧
    (∀ (env : Env) (messages : List Message) (agent : Agent)
       (status : Nat) (line body : String),
      env.http { model := agent.modelVersion, messages := messages,
                 numCtx := some (requestNumCtx agent.tokens),
                 withTools := false } = .resp status line body →
      (status ≠ 200 →
        requestOllama env messages agent = .error ("error: " ++ line)) ∧
      (status = 200 →
        requestOllama env messages agent =
          match env.decodeRequest body with
          | .error e => .error ("failed to decode response: " ++ e)
          | .ok (some content) => .ok content
          | .ok none => .error "unexpected response format or empty response")) := by
  constructor
  · intro env input st agent ctx status line body hctx hh
    constructor
    · intro hs
      unfold processAgentChain
      rw [hctx]
      dsimp only
      rw [hh]
      dsimp only
      rw [if_pos hs]
    · intro hs
      unfold processAgentChain
      rw [hctx]
      dsimp only
      rw [hh]
      dsimp only
      rw [if_neg (by simp [hs])]
  · intro env messages agent status line body hh
    constructor
    · intro hs
      unfold requestOllama
      rw [hh]
      dsimp only
      rw [if_pos hs]
    · intro hs
      unfold requestOllama
      rw [hh]
      dsimp only
      rw [if_neg (by simp [hs])]

/-- Witness for C8 at the concrete 204 service. -/
theorem status_handling_witness :
    processAgentChain env204 "hi" st0 agentA =
      .error ("Ollama API error: " ++ "hello") :=
  (status_handling.1 env204 "hi" st0 agentA "" 204 "204 No Content" "hello"
    rfl rfl).1 (by decide)

end AgentUI
